import Mathlib

/-
Shallow embedding of the SmartHire entitlement, usage-metering and
analytics core.

Sources embedded here:
  - server.cjs (the fixed variant): webhook route for
    checkout.session.completed and customer.subscription.deleted,
    signature verification gate, portal lookup.
  - src/App.jsx: MAX_FREE_AUDITS, the handleAnalyze access gate,
    fetchWithRetry, incrementUsage, calculateAdminStats, and the
    admin history query (collectionGroup ordered by timestamp
    descending with limit 100).

Conventions of the embedding:
  - a Firestore document users/{uid}/usage_limits/smarthire_tracker is a
    Tracker record; the store is an association list from user id to
    Tracker (insertion order preserved, first match wins on lookup);
  - absent numeric fields are read through a 0 default in the code
    (data().bidderChecks or 0), so bidderChecks is a Nat with 0 for
    absent; the stripeCustomerId field is an Option String with none
    for absent;
  - JavaScript numbers are modelled as exact rationals; toFixed(1) is
    modelled as rounding to one decimal digit (round half up on the
    scaled value, which agrees with toFixed on all inputs used here);
  - JavaScript objects used as frequency tables are association lists
    from String to Nat in key-insertion order.
-/

namespace SmartHire

/-- Entitlement record stored at users/{uid}/usage_limits/smarthire_tracker.
Fields mirror the document fields read and written by App.jsx and
server.cjs: isSubscribed, stripeCustomerId (absent = none), and the
usage counter bidderChecks (absent is read as 0). -/
structure Tracker where
  isSubscribed : Bool
  stripeCustomerId : Option String
  bidderChecks : Nat
deriving DecidableEq, Repr

/-- Store of all smarthire_tracker documents, keyed by user id. -/
abbrev Store := List (String × Tracker)

/-- Default tracker document, as created lazily by the App.jsx snapshot
effect: setDoc with bidderChecks 0 and isSubscribed false. -/
def emptyTracker : Tracker := { isSubscribed := false, stripeCustomerId := none, bidderChecks := 0 }

/-- Lookup of the tracker document for a user id (first match). -/
def getTracker : Store → String → Option Tracker
  | [], _ => none
  | (k, t) :: rest, u => if k = u then some t else getTracker rest u

/-- Stored billing customer reference of a user, none when the document
is absent or the field is unset. -/
def refOf (store : Store) (u : String) : Option String :=
  (getTracker store u).bind fun t => t.stripeCustomerId

-- ------------------------------------------------------------------
-- Access gate (App.jsx handleAnalyze, line 1136, and MAX_FREE_AUDITS)
-- ------------------------------------------------------------------

/-- Free-tier limit constant MAX_FREE_AUDITS from App.jsx line 41. -/
def MAX_FREE_AUDITS : Nat := 50

/-- Client-side usage state read by the gate: bidderChecks and
isSubscribed from the snapshot of the tracker document. -/
structure UsageLimits where
  bidderChecks : Nat
  isSubscribed : Bool
deriving DecidableEq, Repr

/-- Decision of the access gate: proceed with the analysis, or show the
quota-exceeded paywall and return. -/
inductive GateDecision where
  | Allow
  | DenyQuotaExceeded
deriving DecidableEq, Repr

/-- Gate condition at the top of handleAnalyze (App.jsx line 1136):
the paywall is shown exactly when the role differs from ADMIN, the
tenant is not subscribed, and bidderChecks has reached MAX_FREE_AUDITS;
otherwise the analysis proceeds. -/
def handleAnalyzeGate (role : String) (lim : UsageLimits) : GateDecision :=
  if role ≠ "ADMIN" ∧ lim.isSubscribed = false ∧ MAX_FREE_AUDITS ≤ lim.bidderChecks
  then GateDecision.DenyQuotaExceeded
  else GateDecision.Allow

/-- Modelled from the spec: the ordered decision procedure of section 4.4
(administrator first, then subscription, then the free quota), written
to be compared with the gate condition of the code. -/
def canProceedSpec (role : String) (lim : UsageLimits) : GateDecision :=
  if role = "ADMIN" then GateDecision.Allow
  else if lim.isSubscribed then GateDecision.Allow
  else if lim.bidderChecks < MAX_FREE_AUDITS then GateDecision.Allow
  else GateDecision.DenyQuotaExceeded

-- ------------------------------------------------------------------
-- Webhook state machine (server.cjs, fixed variant: /api/webhook)
-- ------------------------------------------------------------------

/-- Merge write of the checkout branch: set isSubscribed true and
stripeCustomerId, preserving every other field (Firestore set with
merge true). -/
def setMergeSubscription (t : Tracker) (customer : String) : Tracker :=
  { t with isSubscribed := true, stripeCustomerId := some customer }

/-- Checkout activation write on the tracker document of userId: merge
set on the existing document, or creation of the document holding only
the merged fields when absent (absent counter reads as 0). -/
def applyCheckout : Store → String → String → Store
  | [], userId, customer => [(userId, setMergeSubscription emptyTracker customer)]
  | (k, t) :: rest, userId, customer =>
    if k = userId then (k, setMergeSubscription t customer) :: rest
    else (k, t) :: applyCheckout rest userId customer

/-- Branch of the webhook for checkout.session.completed: the write is
guarded by the truthiness of session.client_reference_id, modelled as
the user id being nonempty. -/
def handleCheckoutCompleted (store : Store) (userId customer : String) : Store :=
  if userId = "" then store else applyCheckout store userId customer

/-- Branch of the webhook for customer.subscription.deleted: every
tracker document whose stripeCustomerId equals the customer of the
event is updated with isSubscribed false; every other document is left
as it is (collectionGroup query filtered on stripeCustomerId, then a
per-document update). -/
def applyCancellation (store : Store) (customer : String) : Store :=
  store.map fun kt =>
    if kt.2.stripeCustomerId = some customer
    then (kt.1, { kt.2 with isSubscribed := false })
    else kt

/-- Atomic usage increment of incrementUsage (App.jsx lines 1122-1133):
the transaction reads the document, creates the default when absent,
and writes bidderChecks plus one. -/
def incrementUsage : Store → String → Store
  | [], userId => [(userId, { emptyTracker with bidderChecks := 1 })]
  | (k, t) :: rest, userId =>
    if k = userId then (k, { t with bidderChecks := t.bidderChecks + 1 }) :: rest
    else (k, t) :: incrementUsage rest userId

/-- Lazy creation performed by the snapshot effect of App.jsx line 1061:
when the tracker document does not exist it is created with the
defaults, otherwise nothing is written. -/
def ensureTracker : Store → String → Store
  | [], userId => [(userId, emptyTracker)]
  | (k, t) :: rest, userId =>
    if k = userId then (k, t) :: rest
    else (k, t) :: ensureTracker rest userId

/-- Operations that mutate the entitlement store during normal
operation: the two webhook branches, the usage increment, and the lazy
default creation. -/
inductive StoreOp where
  | checkout (userId customer : String)
  | cancel (customer : String)
  | increment (userId : String)
  | ensure (userId : String)
deriving DecidableEq, Repr

/-- Effect of one operation on the store. -/
def storeStep (store : Store) : StoreOp → Store
  | StoreOp.checkout u c => handleCheckoutCompleted store u c
  | StoreOp.cancel c => applyCancellation store c
  | StoreOp.increment u => incrementUsage store u
  | StoreOp.ensure u => ensureTracker store u

/-- Effect of a sequence of operations, applied in order. -/
def runOps (store : Store) (ops : List StoreOp) : Store :=
  ops.foldl storeStep store

-- ------------------------------------------------------------------
-- Webhook route with signature verification (server.cjs /api/webhook)
-- ------------------------------------------------------------------

/-- Parsed billing events the route distinguishes; every unrecognized
type is the other constructor. -/
inductive StripeEvent where
  | checkoutCompleted (clientReferenceId : String) (customer : String)
  | subscriptionDeleted (customer : String)
  | other
deriving DecidableEq, Repr

/-- Observable outcome of one webhook delivery: the HTTP status sent,
the store after processing, and whether the handler touched Firestore
at all during the delivery. -/
structure WebhookResult where
  status : Nat
  store : Store
  accessedFirestore : Bool
deriving DecidableEq, Repr

/-- Webhook route of server.cjs: constructEvent is abstracted as a
verification function from the raw body and the signature header to an
event or an error; a verification error is answered with status 400
before any store access; a verified event is dispatched to the two
branches above and answered with status 200, also when its type is
unrecognized. -/
def webhookHandler (verify : String → String → Except String StripeEvent)
    (rawBody sig : String) (store : Store) : WebhookResult :=
  match verify rawBody sig with
  | Except.error _ => { status := 400, store := store, accessedFirestore := false }
  | Except.ok ev =>
    match ev with
    | StripeEvent.checkoutCompleted u c =>
      if u = "" then { status := 200, store := store, accessedFirestore := false }
      else { status := 200, store := applyCheckout store u c, accessedFirestore := true }
    | StripeEvent.subscriptionDeleted c =>
      { status := 200, store := applyCancellation store c, accessedFirestore := true }
    | StripeEvent.other => { status := 200, store := store, accessedFirestore := false }

-- ------------------------------------------------------------------
-- fetchWithRetry (App.jsx lines 127-138)
-- ------------------------------------------------------------------

/-- Trace of one run of the retry loop: the final result, how many
fetch attempts were made, and the milliseconds waited between
consecutive attempts, in order. -/
structure RetryTrace (ε ρ : Type) where
  result : Except ε ρ
  attemptsMade : Nat
  delays : List Nat
deriving Repr

/-- Body of the fetchWithRetry loop from iteration i on: the fetch
outcome of attempt i is given by the oracle; on success the loop
returns at once; on failure at the last iteration the error is
rethrown; otherwise the loop waits two to the power i seconds and
continues. -/
def fetchWithRetryGo (fetch : Nat → Except ε ρ) (maxRetries i : Nat) : RetryTrace ε ρ :=
  match fetch i with
  | Except.ok r => { result := Except.ok r, attemptsMade := 1, delays := [] }
  | Except.error e =>
    if h : i + 1 < maxRetries then
      let t := fetchWithRetryGo fetch maxRetries (i + 1)
      { result := t.result, attemptsMade := t.attemptsMade + 1, delays := 2 ^ i * 1000 :: t.delays }
    else { result := Except.error e, attemptsMade := 1, delays := [] }
termination_by maxRetries - i
decreasing_by omega

/-- fetchWithRetry as called by handleAnalyze: loop from i equal 0 with
the default maxRetries of 3. -/
def fetchWithRetry (fetch : Nat → Except ε ρ) : RetryTrace ε ρ :=
  fetchWithRetryGo fetch 3 0

-- ------------------------------------------------------------------
-- handleAnalyze success path (App.jsx lines 1135-1210)
-- ------------------------------------------------------------------

/-- Tolerant usage increment of App.jsx lines 1122-1133: the
transaction runs, and a thrown error is caught and only logged, leaving
the store unchanged and propagating nothing. The txOk flag says whether
the transaction committed. -/
def incrementUsageCaught (txOk : Bool) (store : Store) (userId : String) : Store :=
  if txOk then incrementUsage store userId else store

/-- User-visible outcome of one handleAnalyze call: whether the paywall
was shown, the report set for display, the error banner, and the store
after the call. -/
structure AnalyzeOutcome (α : Type) where
  showPaywall : Bool
  report : Option α
  errorMessage : Option String
  store : Store
deriving DecidableEq, Repr

/-- Model of handleAnalyze after the files are read: the gate is
consulted first; then the upstream analysis outcome is either a
network-level error (caught, error banner), a response without the
expected JSON text (error banner), or a parsed report, which is
displayed and followed by the tolerant usage increment. -/
def handleAnalyzeModel (role : String) (lim : UsageLimits) (userId : String)
    (fetchOutcome : Except String (Option α)) (txOk : Bool) (store : Store) : AnalyzeOutcome α :=
  if handleAnalyzeGate role lim = GateDecision.DenyQuotaExceeded then
    { showPaywall := true, report := none, errorMessage := none, store := store }
  else
    match fetchOutcome with
    | Except.error e =>
      { showPaywall := false, report := none,
        errorMessage := some ("Analysis failed: " ++ e), store := store }
    | Except.ok none =>
      { showPaywall := false, report := none,
        errorMessage := some ("Analysis failed: AI returned invalid data."), store := store }
    | Except.ok (some j) =>
      { showPaywall := false, report := some j, errorMessage := none,
        store := incrementUsageCaught txOk store userId }

-- ------------------------------------------------------------------
-- Reports and the analytics aggregator (App.jsx lines 620-681)
-- ------------------------------------------------------------------

/-- Report document fields consumed by calculateAdminStats and by the
admin history query. Absent or falsy string fields are the empty
string; the nested candidateSummary.yearsExperienceNum is flattened
here, with none for an absent, null or non-numeric value; the score is
none when absent (the code reads it through a 0 default). -/
structure Report where
  timestamp : Nat
  jobRole : String
  fitLevel : String
  candidateLocation : String
  salaryIndication : String
  suitabilityScore : Option ℚ
  yearsExperienceNum : Option ℚ
  skillGaps : List String
deriving DecidableEq, Repr

/-- Frequency-table increment on a JavaScript object modelled as an
association list: the first entry of the key is incremented, or the key
is appended with count one. -/
def bump : List (String × Nat) → String → List (String × Nat)
  | [], k => [(k, 1)]
  | (k1, v) :: rest, k =>
    if k1 = k then (k1, v + 1) :: rest else (k1, v) :: bump rest k

/-- Value stored under a key of a frequency table, 0 when absent. -/
def lookupCount : List (String × Nat) → String → Nat
  | [], _ => 0
  | (k1, v) :: rest, k => if k1 = k then v else lookupCount rest k

/-- Sum of all counts of a frequency table. -/
def totalCount (m : List (String × Nat)) : Nat :=
  (m.map Prod.snd).sum

/-- Presence of a key in a frequency table, mirroring the undefined
check of the code on the fit table. -/
def hasKey (m : List (String × Nat)) (k : String) : Prop :=
  ∃ p ∈ m, p.1 = k

instance (m : List (String × Nat)) (k : String) : Decidable (hasKey m k) := by
  unfold hasKey
  exact List.decidableBEx _ m

/-- Normalization applied to each skill gap string before counting:
lowercasing, trimming, and removal of the period and comma characters. -/
def normalizeGap (s : String) : String :=
  String.mk (s.toLower.trim.data.filter fun c => ¬(c = Char.ofNat 46 ∨ c = Char.ofNat 44))

/-- Initial fit table of calculateAdminStats, with the four enum keys
present at count 0 in declaration order. -/
def initFitCounts : List (String × Nat) :=
  [("EXCELLENT FIT", 0), ("GOOD FIT", 0), ("AVERAGE", 0), ("POOR FIT", 0)]

/-- Running accumulator of the forEach loop of calculateAdminStats. -/
structure StatsAcc where
  totalScoreSum : ℚ
  totalExpSum : ℚ
  expCount : Nat
  roleCounts : List (String × Nat)
  fitCounts : List (String × Nat)
  skillGapCounts : List (String × Nat)
  locationCounts : List (String × Nat)
  salaryDataCount : Nat
deriving DecidableEq, Repr

/-- Accumulator at loop entry. -/
def initStatsAcc : StatsAcc :=
  { totalScoreSum := 0, totalExpSum := 0, expCount := 0, roleCounts := [],
    fitCounts := initFitCounts, skillGapCounts := [], locationCounts := [],
    salaryDataCount := 0 }

/-- Body of the forEach loop of calculateAdminStats for one report.
Each statement of the body touches a distinct field of the accumulator,
so the sequential statements are written as one record update: the
score is added with a 0 default; the fit level is counted when truthy
and already a key of the fit table; the role is counted with an
Unknown Role default; a present numeric experience is added and
counted; each skill gap is counted under its normalized form; the
location is counted when truthy and different from Unknown; the salary
counter advances when the indication is truthy and different from Not
Specified. -/
def statsStep (acc : StatsAcc) (r : Report) : StatsAcc :=
  { totalScoreSum := acc.totalScoreSum + r.suitabilityScore.getD 0,
    totalExpSum := acc.totalExpSum + (match r.yearsExperienceNum with
      | some e => e
      | none => 0),
    expCount := acc.expCount + (match r.yearsExperienceNum with
      | some _ => 1
      | none => 0),
    roleCounts := bump acc.roleCounts (if r.jobRole = "" then "Unknown Role" else r.jobRole),
    fitCounts := if r.fitLevel ≠ "" ∧ hasKey acc.fitCounts r.fitLevel
      then bump acc.fitCounts r.fitLevel else acc.fitCounts,
    skillGapCounts := r.skillGaps.foldl (fun m gap => bump m (normalizeGap gap)) acc.skillGapCounts,
    locationCounts := if r.candidateLocation ≠ "" ∧ r.candidateLocation ≠ "Unknown"
      then bump acc.locationCounts r.candidateLocation else acc.locationCounts,
    salaryDataCount := acc.salaryDataCount +
      (if r.salaryIndication ≠ "" ∧ r.salaryIndication ≠ "Not Specified" then 1 else 0) }

/-- Statistics record returned by calculateAdminStats. -/
structure AdminStats where
  totalReports : Nat
  avgScore : ℚ
  avgExperience : ℚ
  roleCounts : List (String × Nat)
  fitCounts : List (String × Nat)
  skillGapCounts : List (String × Nat)
  locationCounts : List (String × Nat)
  salaryDataCount : Nat
deriving DecidableEq, Repr

/-- Rounding of toFixed with one digit, on exact rationals: the value
scaled by ten is rounded half up to the nearest integer and scaled
back. -/
def toFixed1 (q : ℚ) : ℚ :=
  ((⌊q * 10 + 1 / 2⌋ : ℤ) : ℚ) / 10

/-- calculateAdminStats from App.jsx lines 620-681: an empty input
returns the initial statistics at once; otherwise one pass of the loop
body over the reports, and the two means are formed at the end, the
score mean over the report count, the experience mean over the count of
present values or 0 when none is present, both through toFixed with one
digit. -/
def calculateAdminStats (reports : List Report) : AdminStats :=
  if reports.length = 0 then
    { totalReports := 0, avgScore := 0, avgExperience := 0, roleCounts := [],
      fitCounts := initFitCounts, skillGapCounts := [], locationCounts := [],
      salaryDataCount := 0 }
  else
    let acc := reports.foldl statsStep initStatsAcc
    { totalReports := reports.length,
      avgScore := toFixed1 (acc.totalScoreSum / (reports.length : ℚ)),
      avgExperience := if 0 < acc.expCount
        then toFixed1 (acc.totalExpSum / (acc.expCount : ℚ)) else 0,
      roleCounts := acc.roleCounts,
      fitCounts := acc.fitCounts,
      skillGapCounts := acc.skillGapCounts,
      locationCounts := acc.locationCounts,
      salaryDataCount := acc.salaryDataCount }

-- ------------------------------------------------------------------
-- Admin history query (App.jsx lines 1074-1076)
-- ------------------------------------------------------------------

/-- Insertion into a list kept in descending timestamp order. -/
def insertDesc (r : Report) : List Report → List Report
  | [] => [r]
  | x :: xs => if x.timestamp < r.timestamp then r :: x :: xs else x :: insertDesc r xs

/-- Reports ordered by timestamp descending. -/
def sortByTimestampDesc (l : List Report) : List Report :=
  l.foldr insertDesc []

/-- Admin history query feeding the aggregator: the collectionGroup of
all reports, ordered by timestamp descending, limited to 100 documents. -/
def adminReportsQuery (allReports : List Report) : List Report :=
  (sortByTimestampDesc allReports).take 100

/-- Report value with every field defaulted and a given timestamp, for
concrete instances. -/
def mkReport (ts : Nat) : Report :=
  { timestamp := ts, jobRole := "", fitLevel := "", candidateLocation := "",
    salaryIndication := "", suitabilityScore := none, yearsExperienceNum := none,
    skillGaps := [] }

/-- Collection of 101 stored reports with distinct timestamps, the
report with timestamp 0 being the oldest. -/
def cex5Reports : List Report :=
  mkReport 0 :: (List.range 101).map fun i => mkReport (i + 1)

/-- Reports of the aggregation test of the spec: scores 80, 60, 100 and
experience values 5, absent, 3. -/
def spec6Reports : List Report :=
  [{ mkReport 1 with suitabilityScore := some 80, yearsExperienceNum := some 5 },
   { mkReport 2 with suitabilityScore := some 60 },
   { mkReport 3 with suitabilityScore := some 100, yearsExperienceNum := some 3 }]

/-- Reports with scores 0, 0, 1, whose exact mean one third is not
representable with one decimal digit. -/
def cex6Reports : List Report :=
  [{ mkReport 1 with suitabilityScore := some 0 },
   { mkReport 2 with suitabilityScore := some 0 },
   { mkReport 3 with suitabilityScore := some 1 }]

/-- Report whose location is the string Unknown. -/
def cex9Reports : List Report :=
  [{ mkReport 1 with candidateLocation := "Unknown" }]

-- ------------------------------------------------------------------
-- Helper lemmas
-- ------------------------------------------------------------------

/-- Sanity check: the modelled rounding is rounding to the nearest
integer of the scaled value. -/
theorem toFixed1_eq_round (q : ℚ) : toFixed1 q = ((round (q * 10) : ℤ) : ℚ) / 10 := by
  rw [toFixed1, round_eq]

/-- Merge of the activation fields is idempotent on a tracker. -/
theorem setMergeSubscription_idem (t : Tracker) (c : String) :
    setMergeSubscription (setMergeSubscription t c) c = setMergeSubscription t c := rfl

/-- Applying the activation write twice for the same user and customer
equals applying it once. -/
theorem applyCheckout_idem (store : Store) (u c : String) :
    applyCheckout (applyCheckout store u c) u c = applyCheckout store u c := by
  induction store with
  | nil => simp [applyCheckout, setMergeSubscription_idem]
  | cons kt rest ih =>
    obtain ⟨k, t⟩ := kt
    by_cases h : k = u
    · simp [applyCheckout, h, setMergeSubscription_idem]
    · simp [applyCheckout, h, ih]

/-- After the activation write the tracker of the user exists, is
subscribed, and stores the customer reference of the event. -/
theorem getTracker_applyCheckout_self (store : Store) (u c : String) :
    ∃ t, getTracker (applyCheckout store u c) u = some t ∧
      t.isSubscribed = true ∧ t.stripeCustomerId = some c := by
  induction store with
  | nil =>
    exact ⟨setMergeSubscription emptyTracker c, by simp [applyCheckout, getTracker], rfl, rfl⟩
  | cons kt rest ih =>
    obtain ⟨k, t⟩ := kt
    by_cases h : k = u
    · exact ⟨setMergeSubscription t c, by simp [applyCheckout, getTracker, h], rfl, rfl⟩
    · obtain ⟨t2, h2, h3, h4⟩ := ih
      exact ⟨t2, by simp [applyCheckout, getTracker, h, h2], h3, h4⟩

-- ------------------------------------------------------------------
-- Claim theorems
-- ------------------------------------------------------------------

/-- C1: the access-gate decision before a billable analysis follows the
ordered procedure administrator, subscription, usage below the free
limit 50; in particular a non-admin unsubscribed tenant is allowed at
49 used audits and denied with the quota paywall at 50. -/
theorem C1_access_gate (role : String) (lim : UsageLimits) :
    handleAnalyzeGate role lim = canProceedSpec role lim ∧
    handleAnalyzeGate ("RECRUITER") { bidderChecks := 49, isSubscribed := false } = GateDecision.Allow ∧
    handleAnalyzeGate ("RECRUITER") { bidderChecks := 50, isSubscribed := false } = GateDecision.DenyQuotaExceeded := by
  refine ⟨?_, by decide, by decide⟩
  by_cases h1 : role = "ADMIN" <;>
    by_cases h2 : lim.isSubscribed <;>
      by_cases h3 : lim.bidderChecks < MAX_FREE_AUDITS <;>
        simp [handleAnalyzeGate, canProceedSpec, h1, h2, h3]

/-- C2: a cancellation event sets isSubscribed to false on every stored
record whose stripeCustomerId equals the customer of the event, also
when several records share it, and leaves every other record unchanged;
the concrete conjunct is the fan-out scenario with three sharing
records and one unrelated record. -/
theorem C2_cancellation_fanout (store : Store) (customer : String) :
    (applyCancellation store customer).length = store.length ∧
    (∀ i : Nat, (applyCancellation store customer)[i]? =
      (store[i]?).map fun kt =>
        if kt.2.stripeCustomerId = some customer
        then (kt.1, { kt.2 with isSubscribed := false })
        else kt) ∧
    applyCancellation
      [("u1", { isSubscribed := true, stripeCustomerId := some ("cus_X"), bidderChecks := 3 }),
       ("u2", { isSubscribed := true, stripeCustomerId := some ("cus_X"), bidderChecks := 0 }),
       ("u3", { isSubscribed := true, stripeCustomerId := some ("cus_X"), bidderChecks := 7 }),
       ("u4", { isSubscribed := true, stripeCustomerId := some ("cus_Y"), bidderChecks := 1 })]
      ("cus_X")
    = [("u1", { isSubscribed := false, stripeCustomerId := some ("cus_X"), bidderChecks := 3 }),
       ("u2", { isSubscribed := false, stripeCustomerId := some ("cus_X"), bidderChecks := 0 }),
       ("u3", { isSubscribed := false, stripeCustomerId := some ("cus_X"), bidderChecks := 7 }),
       ("u4", { isSubscribed := true, stripeCustomerId := some ("cus_Y"), bidderChecks := 1 })] := by
  refine ⟨by simp [applyCancellation], ?_, by decide⟩
  intro i
  simp [applyCancellation]

/-- C3: a webhook delivery whose signature does not verify is answered
with status 400, the handler performs no Firestore access, and the
store is identical before and after the delivery. -/
theorem C3_invalid_signature (verify : String → String → Except String StripeEvent)
    (rawBody sig msg : String) (store : Store)
    (h : verify rawBody sig = Except.error msg) :
    webhookHandler verify rawBody sig store =
      { status := 400, store := store, accessedFirestore := false } := by
  simp [webhookHandler, h]

/-- Witness for C3 at a concrete failing verifier and store. -/
theorem C3_invalid_signature_witness :
    webhookHandler (fun _ _ => Except.error ("bad")) ("payload") ("sig") [] =
      { status := 400, store := [], accessedFirestore := false } :=
  C3_invalid_signature (fun _ _ => Except.error ("bad")) ("payload") ("sig") ("bad") [] rfl

/-- C4: applying the same activation event twice in a row yields the
same store as applying it once, and after either run the tracker of the
tenant is subscribed with the customer reference of the event. -/
theorem C4_activation_idempotent (store : Store) (u c : String) :
    handleCheckoutCompleted (handleCheckoutCompleted store u c) u c =
      handleCheckoutCompleted store u c ∧
    (u ≠ "" → ∃ t, getTracker (handleCheckoutCompleted store u c) u = some t ∧
      t.isSubscribed = true ∧ t.stripeCustomerId = some c) := by
  constructor
  · by_cases h : u = ""
    · simp [handleCheckoutCompleted, h]
    · simp [handleCheckoutCompleted, h, applyCheckout_idem]
  · intro h
    simpa [handleCheckoutCompleted, h] using getTracker_applyCheckout_self store u c

/-- Witness for C4 at a concrete tenant, customer and empty store. -/
theorem C4_activation_idempotent_witness :
    ∃ t, getTracker (handleCheckoutCompleted [] ("alice") ("cus_1")) ("alice") = some t ∧
      t.isSubscribed = true ∧ t.stripeCustomerId = some ("cus_1") :=
  (C4_activation_idempotent [] ("alice") ("cus_1")).2 (by decide)

/-- C7: the upstream analysis call is attempted at most 3 times; a
successful attempt returns at once with no waits; the wait is 1000
milliseconds after the first failure and 2000 after the second; and
when the third attempt also fails its error is the result, unchanged. -/
theorem C7_retry_schedule (fetch : Nat → Except String String) :
    (fetchWithRetry fetch).attemptsMade ≤ 3 ∧
    (∀ r, fetch 0 = Except.ok r →
      fetchWithRetry fetch = { result := Except.ok r, attemptsMade := 1, delays := [] }) ∧
    (∀ e0 r, fetch 0 = Except.error e0 → fetch 1 = Except.ok r →
      fetchWithRetry fetch = { result := Except.ok r, attemptsMade := 2, delays := [1000] }) ∧
    (∀ e0 e1 e2, fetch 0 = Except.error e0 → fetch 1 = Except.error e1 →
        fetch 2 = Except.error e2 →
      fetchWithRetry fetch =
        { result := Except.error e2, attemptsMade := 3, delays := [1000, 2000] }) := by
  refine ⟨?_, ?_, ?_, ?_⟩
  · rcases h0 : fetch 0 with e0 | r0
    · rcases h1 : fetch 1 with e1 | r1
      · rcases h2 : fetch 2 with e2 | r2 <;>
          simp [fetchWithRetry, fetchWithRetryGo, h0, h1, h2]
      · simp [fetchWithRetry, fetchWithRetryGo, h0, h1]
    · simp [fetchWithRetry, fetchWithRetryGo, h0]
  · intro r h0
    simp [fetchWithRetry, fetchWithRetryGo, h0]
  · intro e0 r h0 h1
    simp [fetchWithRetry, fetchWithRetryGo, h0, h1]
  · intro e0 e1 e2 h0 h1 h2
    simp [fetchWithRetry, fetchWithRetryGo, h0, h1, h2]

/-- Witness for C7 at an always-failing fetch oracle. -/
theorem C7_retry_schedule_witness :
    fetchWithRetry (fun _ => Except.error ("boom")) =
      { result := (Except.error ("boom") : Except String String), attemptsMade := 3,
        delays := [1000, 2000] } :=
  (C7_retry_schedule (fun _ => Except.error ("boom"))).2.2.2 ("boom") ("boom") ("boom") rfl rfl rfl

/-- C10: when the gate allows and the analysis succeeds, a failing
usage-increment transaction is caught and only logged: the report is
still displayed, no error is surfaced, the store is unchanged; and with
a committing transaction the displayed result is the same. -/
theorem C10_increment_failure_tolerated {α : Type} (role : String) (lim : UsageLimits)
    (userId : String) (j : α) (store : Store)
    (hgate : handleAnalyzeGate role lim = GateDecision.Allow) :
    handleAnalyzeModel role lim userId (Except.ok (some j)) false store =
      { showPaywall := false, report := some j, errorMessage := none, store := store } ∧
    (handleAnalyzeModel role lim userId (Except.ok (some j)) true store).report = some j ∧
    (handleAnalyzeModel role lim userId (Except.ok (some j)) true store).errorMessage = none := by
  have h2 : ¬(handleAnalyzeGate role lim = GateDecision.DenyQuotaExceeded) := by
    rw [hgate]
    intro hcon
    cases hcon
  refine ⟨?_, ?_, ?_⟩ <;> simp [handleAnalyzeModel, h2, incrementUsageCaught]

/-- Witness for C10 at a concrete allowed tenant and failing
transaction. -/
theorem C10_increment_failure_tolerated_witness :
    handleAnalyzeModel ("RECRUITER") { bidderChecks := 0, isSubscribed := false } ("alice")
        (Except.ok (some 0)) false [] =
      { showPaywall := false, report := some (0 : Nat), errorMessage := none, store := [] } :=
  (C10_increment_failure_tolerated ("RECRUITER") { bidderChecks := 0, isSubscribed := false }
    ("alice") (0 : Nat) [] (by decide)).1

-- ------------------------------------------------------------------
-- C5: the admin aggregation input and the limit of 100
-- ------------------------------------------------------------------

/-- Membership is preserved by ordered insertion. -/
theorem mem_insertDesc (r x : Report) (l : List Report) :
    x ∈ insertDesc r l ↔ x = r ∨ x ∈ l := by
  induction l with
  | nil => simp [insertDesc]
  | cons y ys ih =>
    by_cases h : y.timestamp < r.timestamp
    · simp [insertDesc, h]
    · simp [insertDesc, h, ih]
      tauto

/-- Ordered insertion grows the length by one. -/
theorem length_insertDesc (r : Report) (l : List Report) :
    (insertDesc r l).length = l.length + 1 := by
  induction l with
  | nil => simp [insertDesc]
  | cons y ys ih =>
    by_cases h : y.timestamp < r.timestamp <;> simp [insertDesc, h, ih]

/-- Sorting by timestamp preserves membership. -/
theorem mem_sortByTimestampDesc (x : Report) (l : List Report) :
    x ∈ sortByTimestampDesc l ↔ x ∈ l := by
  induction l with
  | nil => simp [sortByTimestampDesc]
  | cons y ys ih =>
    have : sortByTimestampDesc (y :: ys) = insertDesc y (sortByTimestampDesc ys) := rfl
    rw [this, mem_insertDesc, ih]
    simp

/-- Sorting by timestamp preserves the length. -/
theorem length_sortByTimestampDesc (l : List Report) :
    (sortByTimestampDesc l).length = l.length := by
  induction l with
  | nil => rfl
  | cons y ys ih =>
    have : sortByTimestampDesc (y :: ys) = insertDesc y (sortByTimestampDesc ys) := rfl
    rw [this, length_insertDesc, ih]
    rfl

/-- Counterexample to C5: with 101 stored reports, the oldest report is
stored but does not reach the aggregation input, because the admin
history query truncates to the 100 most recent reports. -/
theorem C5_counterexample :
    mkReport 0 ∈ cex5Reports ∧ mkReport 0 ∉ adminReportsQuery cex5Reports := by
  constructor
  · simp [cex5Reports]
  · decide

/-- C5 amended: the aggregation input consists of stored reports only,
it is capped at the 100 most recent by timestamp, and whenever at most
100 reports are stored, every stored report contributes to it. -/
theorem C5_admin_input_capped (reports : List Report) :
    (reports.length ≤ 100 → ∀ r ∈ reports, r ∈ adminReportsQuery reports) ∧
    (∀ r ∈ adminReportsQuery reports, r ∈ reports) ∧
    (adminReportsQuery reports).length = min reports.length 100 := by
  refine ⟨?_, ?_, ?_⟩
  · intro h r hr
    unfold adminReportsQuery
    rw [List.take_of_length_le]
    · exact (mem_sortByTimestampDesc r reports).mpr hr
    · rw [length_sortByTimestampDesc]
      exact h
  · intro r hr
    exact (mem_sortByTimestampDesc r reports).mp (List.take_subset _ _ hr)
  · unfold adminReportsQuery
    rw [List.length_take, length_sortByTimestampDesc, Nat.min_comm]

/-- Witness for the amended C5 at a singleton store of reports. -/
theorem C5_admin_input_capped_witness :
    mkReport 5 ∈ adminReportsQuery [mkReport 5] :=
  (C5_admin_input_capped [mkReport 5]).1 (by decide) (mkReport 5) (by decide)

-- ------------------------------------------------------------------
-- C6: the two means of the aggregator
-- ------------------------------------------------------------------

/-- Score accumulation of the loop equals the sum of the scores read
with a 0 default. -/
theorem foldl_statsStep_totalScoreSum (l : List Report) (a : StatsAcc) :
    (l.foldl statsStep a).totalScoreSum =
      a.totalScoreSum + (l.map fun r => r.suitabilityScore.getD 0).sum := by
  induction l generalizing a with
  | nil => simp
  | cons r rs ih =>
    rw [List.foldl_cons, ih]
    simp [statsStep]
    ring

/-- Experience accumulation of the loop equals the sum of the present
numeric experience values. -/
theorem foldl_statsStep_totalExpSum (l : List Report) (a : StatsAcc) :
    (l.foldl statsStep a).totalExpSum =
      a.totalExpSum + (l.filterMap fun r => r.yearsExperienceNum).sum := by
  induction l generalizing a with
  | nil => simp
  | cons r rs ih =>
    rw [List.foldl_cons, ih]
    cases h : r.yearsExperienceNum with
    | none => simp [statsStep, h]
    | some e =>
      simp [statsStep, h]
      ring

/-- Experience counter of the loop equals the number of reports with a
present numeric experience value. -/
theorem foldl_statsStep_expCount (l : List Report) (a : StatsAcc) :
    (l.foldl statsStep a).expCount =
      a.expCount + (l.filterMap fun r => r.yearsExperienceNum).length := by
  induction l generalizing a with
  | nil => simp
  | cons r rs ih =>
    rw [List.foldl_cons, ih]
    cases h : r.yearsExperienceNum with
    | none => simp [statsStep, h]
    | some e =>
      simp [statsStep, h]
      ring

/-- Score mean of the aggregator on a nonempty input: the sum of the
scores over the report count, rounded to one decimal digit. -/
theorem calculateAdminStats_avgScore (reports : List Report) (h : reports ≠ []) :
    (calculateAdminStats reports).avgScore =
      toFixed1 ((reports.map fun r => r.suitabilityScore.getD 0).sum / (reports.length : ℚ)) := by
  have hlen : ¬(reports.length = 0) := by simpa using h
  unfold calculateAdminStats
  rw [if_neg hlen]
  simp only
  rw [foldl_statsStep_totalScoreSum]
  simp [initStatsAcc]

/-- Experience mean of the aggregator on a nonempty input with at least
one present experience value: the sum of the present values over their
count, rounded to one decimal digit. -/
theorem calculateAdminStats_avgExperience (reports : List Report) (h : reports ≠ [])
    (h2 : (reports.filterMap fun r => r.yearsExperienceNum) ≠ []) :
    (calculateAdminStats reports).avgExperience =
      toFixed1 ((reports.filterMap fun r => r.yearsExperienceNum).sum /
        (((reports.filterMap fun r => r.yearsExperienceNum).length : ℚ))) := by
  have hlen : ¬(reports.length = 0) := by simpa using h
  have hpos : 0 < (reports.filterMap fun r => r.yearsExperienceNum).length :=
    List.length_pos.mpr h2
  unfold calculateAdminStats
  rw [if_neg hlen]
  simp only
  rw [foldl_statsStep_expCount, foldl_statsStep_totalExpSum]
  simp [initStatsAcc, hpos]

/-- Counterexample to C6 as stated: for stored scores 0, 0, 1 the
aggregator reports three tenths as the mean score, not the exact mean
one third, because the value passes through toFixed with one digit. -/
theorem C6_counterexample :
    (calculateAdminStats cex6Reports).avgScore ≠
      (cex6Reports.map fun r => r.suitabilityScore.getD 0).sum / ((cex6Reports.length : ℚ)) := by
  rw [calculateAdminStats_avgScore cex6Reports (by simp [cex6Reports])]
  norm_num [cex6Reports, mkReport, toFixed1]

/-- C6 amended: the mean score is the sum of the scores over the total
report count and the mean experience is the sum of the present numeric
experience values over their count, each rounded to one decimal digit
by toFixed; on the spec test reports the values are exactly 80 and 4. -/
theorem C6_means (reports : List Report) (h : reports ≠ []) :
    (calculateAdminStats reports).avgScore =
      toFixed1 ((reports.map fun r => r.suitabilityScore.getD 0).sum / (reports.length : ℚ)) ∧
    ((reports.filterMap fun r => r.yearsExperienceNum) ≠ [] →
      (calculateAdminStats reports).avgExperience =
        toFixed1 ((reports.filterMap fun r => r.yearsExperienceNum).sum /
          (((reports.filterMap fun r => r.yearsExperienceNum).length : ℚ)))) ∧
    (calculateAdminStats spec6Reports).avgScore = 80 ∧
    (calculateAdminStats spec6Reports).avgExperience = 4 := by
  refine ⟨calculateAdminStats_avgScore reports h,
    fun h2 => calculateAdminStats_avgExperience reports h h2, ?_, ?_⟩
  · rw [calculateAdminStats_avgScore spec6Reports (by simp [spec6Reports])]
    simp [spec6Reports, mkReport]
    norm_num [toFixed1]
  · rw [calculateAdminStats_avgExperience spec6Reports (by simp [spec6Reports])
      (by simp [spec6Reports, mkReport])]
    simp [spec6Reports, mkReport]
    norm_num [toFixed1]

/-- Witness for the amended C6 at the spec test reports. -/
theorem C6_means_witness :
    (calculateAdminStats spec6Reports).avgScore = 80 ∧
    (calculateAdminStats spec6Reports).avgExperience = 4 :=
  ⟨(C6_means spec6Reports (by simp [spec6Reports])).2.2.1,
   (C6_means spec6Reports (by simp [spec6Reports])).2.2.2⟩

-- ------------------------------------------------------------------
-- C9: the location frequency table
-- ------------------------------------------------------------------

/-- Incrementing a frequency table raises the total by one. -/
theorem totalCount_bump (m : List (String × Nat)) (k : String) :
    totalCount (bump m k) = totalCount m + 1 := by
  induction m with
  | nil => simp [bump, totalCount]
  | cons p rest ih =>
    obtain ⟨k1, v⟩ := p
    by_cases h : k1 = k <;> simp [bump, h, totalCount] at * <;> omega

/-- Incrementing a frequency table raises the looked-up key by one
when it is the incremented key and leaves every other key unchanged. -/
theorem lookupCount_bump (m : List (String × Nat)) (k1 k : String) :
    lookupCount (bump m k1) k = lookupCount m k + (if k1 = k then 1 else 0) := by
  induction m with
  | nil => by_cases h : k1 = k <;> simp [bump, lookupCount, h]
  | cons p rest ih =>
    obtain ⟨k2, v⟩ := p
    by_cases h2 : k2 = k1
    · subst h2
      by_cases h3 : k2 = k <;> simp [bump, lookupCount, h3]
    · by_cases h3 : k2 = k
      · subst h3
        have : ¬(k1 = k2) := fun hc => h2 hc.symm
        simp [bump, h2, lookupCount, this]
      · simp [bump, h2, lookupCount, h3, ih]

/-- Total of the location table accumulated by the loop: one count per
report whose location is nonempty and different from Unknown. -/
theorem foldl_statsStep_locTotal (l : List Report) (a : StatsAcc) :
    totalCount (l.foldl statsStep a).locationCounts =
      totalCount a.locationCounts +
        l.countP fun r =>
          decide (r.candidateLocation ≠ "" ∧ r.candidateLocation ≠ "Unknown") := by
  induction l generalizing a with
  | nil => simp
  | cons r rs ih =>
    rw [List.foldl_cons, ih, List.countP_cons]
    by_cases h : r.candidateLocation ≠ "" ∧ r.candidateLocation ≠ "Unknown"
    · simp [statsStep, h, totalCount_bump]
      omega
    · simp [statsStep, h]

/-- Entry of the location table accumulated by the loop for a key that
is nonempty and different from Unknown: one count per report with
exactly that location. -/
theorem foldl_statsStep_locLookup (l : List Report) (a : StatsAcc) (k : String)
    (hk1 : k ≠ "") (hk2 : k ≠ "Unknown") :
    lookupCount (l.foldl statsStep a).locationCounts k =
      lookupCount a.locationCounts k + (l.countP fun r => r.candidateLocation == k) := by
  induction l generalizing a with
  | nil => simp
  | cons r rs ih =>
    rw [List.foldl_cons, ih, List.countP_cons]
    by_cases h : r.candidateLocation ≠ "" ∧ r.candidateLocation ≠ "Unknown"
    · simp [statsStep, h, lookupCount_bump]
      by_cases hrk : r.candidateLocation = k
      · simp [hrk]
        omega
      · simp [hrk]
    · have hor : r.candidateLocation = "" ∨ r.candidateLocation = "Unknown" := by
        tauto
      have hrk : ¬(r.candidateLocation = k) := by
        rcases hor with h3 | h3 <;> rw [h3] <;> intro hc
        · exact hk1 hc.symm
        · exact hk2 hc.symm
      simp [statsStep, h, hrk]

/-- Counterexample to C9 as stated: a report whose location string is
Unknown is nonempty, yet the location table stays empty, so the total
of the table (here 0) differs from the number of reports with a
nonempty location string (here 1). -/
theorem C9_counterexample :
    totalCount (calculateAdminStats cex9Reports).locationCounts ≠
      (cex9Reports.countP fun r => decide (r.candidateLocation ≠ "")) := by
  decide

/-- C9 amended: a report is counted, under its exact location string,
exactly when its location is nonempty and differs from the sentinel
Unknown, and the total of the table is the number of such reports. -/
theorem C9_location_table (reports : List Report) (k : String)
    (hk1 : k ≠ "") (hk2 : k ≠ "Unknown") :
    totalCount (calculateAdminStats reports).locationCounts =
      (reports.countP fun r =>
        decide (r.candidateLocation ≠ "" ∧ r.candidateLocation ≠ "Unknown")) ∧
    lookupCount (calculateAdminStats reports).locationCounts k =
      (reports.countP fun r => r.candidateLocation == k) := by
  by_cases hlen : reports.length = 0
  · have hnil : reports = [] := List.length_eq_zero.mp hlen
    subst hnil
    simp [calculateAdminStats, totalCount, lookupCount]
  · unfold calculateAdminStats
    rw [if_neg hlen]
    simp only
    constructor
    · rw [foldl_statsStep_locTotal]
      simp [initStatsAcc, totalCount]
    · rw [foldl_statsStep_locLookup _ _ _ hk1 hk2]
      simp [initStatsAcc, lookupCount]

/-- Witness for the amended C9 at a concrete report list and key. -/
theorem C9_location_table_witness :
    totalCount (calculateAdminStats
        [{ mkReport 1 with candidateLocation := "Berlin" },
         { mkReport 2 with candidateLocation := "Unknown" },
         mkReport 3]).locationCounts =
      ([{ mkReport 1 with candidateLocation := "Berlin" },
        { mkReport 2 with candidateLocation := "Unknown" },
        mkReport 3].countP fun r =>
          decide (r.candidateLocation ≠ "" ∧ r.candidateLocation ≠ "Unknown")) :=
  (C9_location_table
    [{ mkReport 1 with candidateLocation := "Berlin" },
     { mkReport 2 with candidateLocation := "Unknown" },
     mkReport 3] ("Berlin") (by decide) (by decide)).1

-- ------------------------------------------------------------------
-- C8: the billing customer reference invariant
-- ------------------------------------------------------------------

/-- Cancellation maps every tracker pointwise: the matching trackers
lose their subscription flag and nothing else changes. -/
theorem getTracker_applyCancellation (s : Store) (c k : String) :
    getTracker (applyCancellation s c) k =
      (getTracker s k).map fun t =>
        if t.stripeCustomerId = some c then { t with isSubscribed := false } else t := by
  induction s with
  | nil => rfl
  | cons kt rest ih =>
    obtain ⟨k1, t⟩ := kt
    have hcons : applyCancellation ((k1, t) :: rest) c =
        (if t.stripeCustomerId = some c
         then (k1, { t with isSubscribed := false })
         else (k1, t)) :: applyCancellation rest c := rfl
    rw [hcons]
    by_cases h2 : t.stripeCustomerId = some c
    · rw [if_pos h2]
      by_cases h : k1 = k
      · subst h
        simp [getTracker, h2]
      · simp [getTracker, h, ih]
    · rw [if_neg h2]
      by_cases h : k1 = k
      · subst h
        simp [getTracker, h2]
      · simp [getTracker, h, ih]

/-- Cancellation never changes the stored billing customer reference of
any user. -/
theorem refOf_applyCancellation (s : Store) (c k : String) :
    refOf (applyCancellation s c) k = refOf s k := by
  unfold refOf
  rw [getTracker_applyCancellation]
  cases getTracker s k with
  | none => rfl
  | some t => by_cases h2 : t.stripeCustomerId = some c <;> simp [h2]

/-- The activation write leaves the tracker of every other user in
place. -/
theorem getTracker_applyCheckout_ne (s : Store) (u c k : String) (h : k ≠ u) :
    getTracker (applyCheckout s u c) k = getTracker s k := by
  have h0 : ¬(u = k) := fun hc => h hc.symm
  induction s with
  | nil => simp [applyCheckout, getTracker, h0]
  | cons kt rest ih =>
    obtain ⟨k1, t⟩ := kt
    by_cases h1 : k1 = u
    · have h2 : ¬(k1 = k) := by
        rw [h1]
        exact h0
      simp [applyCheckout, getTracker, h1, h2, h0]
    · by_cases h2 : k1 = k <;> simp [applyCheckout, getTracker, h1, h2, h0, h, ih]

/-- After the activation write the billing customer reference of the
written user is the customer of the event. -/
theorem refOf_applyCheckout_self (s : Store) (u c : String) :
    refOf (applyCheckout s u c) u = some c := by
  obtain ⟨t, ht, _, hstripe⟩ := getTracker_applyCheckout_self s u c
  simp [refOf, ht, hstripe]

/-- The usage increment keeps every other tracker in place. -/
theorem getTracker_incrementUsage_ne (s : Store) (u k : String) (h : k ≠ u) :
    getTracker (incrementUsage s u) k = getTracker s k := by
  have h0 : ¬(u = k) := fun hc => h hc.symm
  induction s with
  | nil => simp [incrementUsage, getTracker, h0]
  | cons kt rest ih =>
    obtain ⟨k1, t⟩ := kt
    by_cases h1 : k1 = u
    · have h2 : ¬(k1 = k) := by
        rw [h1]
        exact h0
      simp [incrementUsage, getTracker, h1, h2, h0]
    · by_cases h2 : k1 = k <;> simp [incrementUsage, getTracker, h1, h2, h0, h, ih]

/-- The usage increment advances only the counter of the incremented
user, creating the default document when absent. -/
theorem getTracker_incrementUsage_self (s : Store) (u : String) :
    getTracker (incrementUsage s u) u =
      some (match getTracker s u with
        | some t => { t with bidderChecks := t.bidderChecks + 1 }
        | none => { emptyTracker with bidderChecks := 1 }) := by
  induction s with
  | nil => simp [incrementUsage, getTracker]
  | cons kt rest ih =>
    obtain ⟨k1, t⟩ := kt
    by_cases h1 : k1 = u <;> simp [incrementUsage, getTracker, h1, ih]

/-- The usage increment never changes the stored billing customer
reference of any user. -/
theorem refOf_incrementUsage (s : Store) (u k : String) :
    refOf (incrementUsage s u) k = refOf s k := by
  by_cases h : k = u
  · subst h
    unfold refOf
    rw [getTracker_incrementUsage_self]
    cases getTracker s k with
    | none => simp [emptyTracker]
    | some t => simp
  · unfold refOf
    rw [getTracker_incrementUsage_ne s u k h]

/-- Lazy creation keeps every other tracker in place. -/
theorem getTracker_ensureTracker_ne (s : Store) (u k : String) (h : k ≠ u) :
    getTracker (ensureTracker s u) k = getTracker s k := by
  have h0 : ¬(u = k) := fun hc => h hc.symm
  induction s with
  | nil => simp [ensureTracker, getTracker, h0]
  | cons kt rest ih =>
    obtain ⟨k1, t⟩ := kt
    by_cases h1 : k1 = u
    · have h2 : ¬(k1 = k) := by
        rw [h1]
        exact h0
      simp [ensureTracker, getTracker, h1, h2, h0]
    · by_cases h2 : k1 = k <;> simp [ensureTracker, getTracker, h1, h2, h0, h, ih]

/-- Lazy creation yields the existing tracker or the default one. -/
theorem getTracker_ensureTracker_self (s : Store) (u : String) :
    getTracker (ensureTracker s u) u =
      some (match getTracker s u with
        | some t => t
        | none => emptyTracker) := by
  induction s with
  | nil => simp [ensureTracker, getTracker]
  | cons kt rest ih =>
    obtain ⟨k1, t⟩ := kt
    by_cases h1 : k1 = u <;> simp [ensureTracker, getTracker, h1, ih]

/-- Lazy creation never changes the stored billing customer reference
of any user. -/
theorem refOf_ensureTracker (s : Store) (u k : String) :
    refOf (ensureTracker s u) k = refOf s k := by
  by_cases h : k = u
  · subst h
    unfold refOf
    rw [getTracker_ensureTracker_self]
    cases getTracker s k with
    | none => simp [emptyTracker]
    | some t => simp
  · unfold refOf
    rw [getTracker_ensureTracker_ne s u k h]

/-- The billing customer reference of a user is set after a sequence of
operations exactly when it was set before or the sequence carries an
unguarded activation for that user. -/
theorem refOf_runOps_iff (ops : List StoreOp) (s : Store) (u : String) :
    refOf (runOps s ops) u ≠ none ↔
      (refOf s u ≠ none ∨ ∃ c, StoreOp.checkout u c ∈ ops ∧ u ≠ "") := by
  induction ops generalizing s with
  | nil => simp [runOps]
  | cons op rest ih =>
    have hstep : runOps s (op :: rest) = runOps (storeStep s op) rest := rfl
    rw [hstep, ih]
    cases op with
    | checkout u2 c2 =>
      by_cases hu2 : u2 = ""
      · have hskip : storeStep s (StoreOp.checkout u2 c2) = s := by
          simp [storeStep, handleCheckoutCompleted, hu2]
        rw [hskip]
        constructor
        · rintro (h | ⟨c, hc, hne⟩)
          · exact Or.inl h
          · exact Or.inr ⟨c, List.mem_cons_of_mem _ hc, hne⟩
        · rintro (h | ⟨c, hc, hne⟩)
          · exact Or.inl h
          · rcases List.mem_cons.mp hc with heq | hmem
            · exfalso
              injection heq with hu hcc
              exact hne (hu.trans hu2)
            · exact Or.inr ⟨c, hmem, hne⟩
      · by_cases huu : u = u2
        · subst huu
          have hset : refOf (storeStep s (StoreOp.checkout u c2)) u = some c2 := by
            simp [storeStep, handleCheckoutCompleted, hu2, refOf_applyCheckout_self]
          constructor
          · intro _
            exact Or.inr ⟨c2, List.mem_cons_self _ _, hu2⟩
          · intro _
            exact Or.inl (by simp [hset])
        · have hpres : refOf (storeStep s (StoreOp.checkout u2 c2)) u = refOf s u := by
            have : ¬(u2 = "") → refOf (applyCheckout s u2 c2) u = refOf s u := by
              intro _
              unfold refOf
              rw [getTracker_applyCheckout_ne s u2 c2 u huu]
            simp [storeStep, handleCheckoutCompleted, hu2]
            exact this hu2
          rw [hpres]
          constructor
          · rintro (h | ⟨c, hc, hne⟩)
            · exact Or.inl h
            · exact Or.inr ⟨c, List.mem_cons_of_mem _ hc, hne⟩
          · rintro (h | ⟨c, hc, hne⟩)
            · exact Or.inl h
            · rcases List.mem_cons.mp hc with heq | hmem
              · exfalso
                injection heq with hu hcc
                exact huu hu
              · exact Or.inr ⟨c, hmem, hne⟩
    | cancel c2 =>
      have : refOf (storeStep s (StoreOp.cancel c2)) u = refOf s u :=
        refOf_applyCancellation s c2 u
      rw [this]
      simp
    | increment u2 =>
      have : refOf (storeStep s (StoreOp.increment u2)) u = refOf s u :=
        refOf_incrementUsage s u2 u
      rw [this]
      simp
    | ensure u2 =>
      have : refOf (storeStep s (StoreOp.ensure u2)) u = refOf s u :=
        refOf_ensureTracker s u2 u
      rw [this]
      simp

/-- C8: starting from an empty store, the billing customer reference of
a tenant is set exactly when an activation event for that tenant has
been applied; a cancellation updates only the subscription flag,
preserving the reference and the counter of every record; and no
operation ever clears a reference that is set. -/
theorem C8_billing_ref_invariant (ops : List StoreOp) (u : String) :
    (refOf (runOps [] ops) u ≠ none ↔ ∃ c, StoreOp.checkout u c ∈ ops ∧ u ≠ "") ∧
    (∀ s c k, refOf (storeStep s (StoreOp.cancel c)) k = refOf s k) ∧
    (∀ s c k t, getTracker s k = some t →
      getTracker (storeStep s (StoreOp.cancel c)) k =
        some (if t.stripeCustomerId = some c then { t with isSubscribed := false } else t)) ∧
    (∀ s op k, refOf s k ≠ none → refOf (storeStep s op) k ≠ none) := by
  refine ⟨?_, ?_, ?_, ?_⟩
  · rw [refOf_runOps_iff]
    simp [refOf, getTracker]
  · intro s c k
    exact refOf_applyCancellation s c k
  · intro s c k t ht
    have := getTracker_applyCancellation s c k
    rw [ht] at this
    simpa [storeStep] using this
  · intro s op k h
    cases op with
    | checkout u2 c2 =>
      by_cases hu2 : u2 = ""
      · simpa [storeStep, handleCheckoutCompleted, hu2] using h
      · by_cases hk : k = u2
        · subst hk
          simp [storeStep, handleCheckoutCompleted, hu2, refOf_applyCheckout_self]
        · have : refOf (applyCheckout s u2 c2) k = refOf s k := by
            unfold refOf
            rw [getTracker_applyCheckout_ne s u2 c2 k hk]
          simpa [storeStep, handleCheckoutCompleted, hu2, this] using h
    | cancel c2 =>
      rw [show storeStep s (StoreOp.cancel c2) = applyCancellation s c2 from rfl,
        refOf_applyCancellation s c2 k]
      exact h
    | increment u2 =>
      rw [show storeStep s (StoreOp.increment u2) = incrementUsage s u2 from rfl,
        refOf_incrementUsage s u2 k]
      exact h
    | ensure u2 =>
      rw [show storeStep s (StoreOp.ensure u2) = ensureTracker s u2 from rfl,
        refOf_ensureTracker s u2 k]
      exact h

/-- Witness for C8 at a concrete activation followed by a cancellation. -/
theorem C8_billing_ref_invariant_witness :
    refOf (runOps [] [StoreOp.checkout ("alice") ("cus_1"), StoreOp.cancel ("cus_1")])
        ("alice") ≠ none :=
  (C8_billing_ref_invariant [StoreOp.checkout ("alice") ("cus_1"), StoreOp.cancel ("cus_1")]
    ("alice")).1.mpr ⟨"cus_1", by simp, by simp⟩

end SmartHire
